import Mathlib

/-!
Verification model of `clip2ai.py`, a clipboard-to-LLM dispatch utility.

The program reads the system clipboard on a hotkey, sends the text to the
Google Gemini API, and writes the reply back to the clipboard.  We embed the
three functions that carry the behaviour:

* `extract_text_from_response` — the shape-sniffing extraction of the reply
  text from a Gemini response (`clip2ai.py` lines 88–105); a Python attribute
  access that raises is modelled as `none`.
* `send_prompt_to_gemini` — the remote call (lines 108–135); the network
  interaction is an oracle returning `Except.error msg` for any raised
  exception, and the surrounding `try/except` maps every failure to `none`.
* `process_clipboard` — the dispatch pipeline body (lines 138–162); the
  process-wide state (clipboard, `_last_processed`) is passed explicitly and
  the remote call is an oracle `remote : String → Option String`.

A separate small-step two-thread model with the `threading.Lock` (lines
85, 140) backs the concurrency claim about serialized executions.
-/

/-- Model of Python `str.strip()` as used in `process_clipboard` (line 142):
removes leading and trailing whitespace characters from the string. -/
def strip (s : String) : String :=
  ⟨((s.data.dropWhile Char.isWhitespace).reverse.dropWhile Char.isWhitespace).reverse⟩

/-- One element of a `parts` list in a Gemini response.  Its `text` attribute
may be absent (attribute access raising in Python), modelled as `none`. -/
structure RespPart where
  text : Option String
deriving DecidableEq, Repr

/-- The `content` object of a response candidate, holding a list of parts. -/
structure RespContent where
  parts : List RespPart
deriving DecidableEq, Repr

/-- One element of the `candidates` list of a Gemini response; its `content`
attribute may be absent. -/
structure RespCandidate where
  content : Option RespContent
deriving DecidableEq, Repr

/-- A Gemini response payload, exposing the three shapes the source probes:
the direct `text` field, the `candidates[0].content.parts[0].text` chain, and
the alternate `parts[0].text` chain.  `text = none` models a `resp.text`
access that raises. -/
structure GeminiResponse where
  text : Option String
  candidates : List RespCandidate
  parts : List RespPart
deriving DecidableEq, Repr

/-- The attribute chain `resp.candidates[0].content.parts[0].text` of
`extract_text_from_response` (line 99): any failing step (empty list, absent
attribute) raises in Python, modelled as `none`. -/
def candidatesText (resp : GeminiResponse) : Option String :=
  match resp.candidates[0]? with
  | none => none
  | some c =>
    match c.content with
    | none => none
    | some ct =>
      match ct.parts[0]? with
      | none => none
      | some p => p.text

/-- The attribute chain `resp.parts[0].text` of `extract_text_from_response`
(line 103). -/
def partsText (resp : GeminiResponse) : Option String :=
  match resp.parts[0]? with
  | none => none
  | some p => p.text

/-- Model of `extract_text_from_response` (lines 88–105): nested
`try/except` blocks try `resp.text`, then the candidates chain, then the
`parts` chain, falling through exactly when an access raises (`none`). -/
def extract_text_from_response (resp : GeminiResponse) : Option String :=
  match resp.text with
  | some t => some t
  | none =>
    match candidatesText resp with
    | some t => some t
    | none =>
      match partsText resp with
      | some t => some t
      | none => none

/-- Python default argument `model="gemini-2.0-flash-lite"` of
`send_prompt_to_gemini` (line 109). -/
def default_model : String := "gemini-2.0-flash-lite"

/-- Python default argument `max_tokens=800` of `send_prompt_to_gemini`. -/
def default_max_tokens : Nat := 800

/-- Python default argument `temperature=0.2` of `send_prompt_to_gemini`. -/
def default_temperature : ℚ := 0.2

/-- Model of `send_prompt_to_gemini` (lines 108–135).  The oracle `net` is the
network interaction `genai.GenerativeModel(model).generate_content(prompt,
generation_config)` applied to the prompt and the three generation options;
`Except.error msg` models any raised exception (timeout, authentication, rate
limit, malformed payload).  The function's `try/except` returns `none` on any
exception and otherwise extracts the text from the response. -/
def send_prompt_to_gemini
    (net : String → String → Nat → ℚ → Except String GeminiResponse)
    (prompt_text : String) (model : String) (max_tokens : Nat)
    (temperature : ℚ) : Option String :=
  match net prompt_text model max_tokens temperature with
  | Except.error _ => none
  | Except.ok response => extract_text_from_response response

/-- `send_prompt_to_gemini` as called from `process_clipboard` (line 153) with
no explicit options, so the Python default arguments apply. -/
def send_prompt_to_gemini_defaults
    (net : String → String → Nat → ℚ → Except String GeminiResponse)
    (prompt_text : String) : Option String :=
  send_prompt_to_gemini net prompt_text default_model default_max_tokens
    default_temperature

/-- The process-wide mutable state owned by the dispatch pipeline: the ambient
clipboard (`none` models absent or non-`str` content) and the module global
`_last_processed`. -/
structure PipelineState where
  clipboard : Option String
  last_processed : Option String
deriving DecidableEq, Repr

/-- Outcome of one pipeline run: the final state and how many remote calls the
run performed. -/
structure RunResult where
  state : PipelineState
  remote_calls : Nat
deriving DecidableEq, Repr

/-- Initial value of the module global `_last_processed` (line 84):
`None`. -/
def initial_last_processed : Option String := none

/-- Model of the body of `process_clipboard` (lines 138–162).  The clipboard
read `pyperclip.paste()` yields `s.clipboard`; a non-`str` value is `none`.
The guards mirror the source: empty-after-strip text is a no-op, text equal to
`_last_processed` is a no-op, and the remote reply is written back only when
it is truthy (`if model_response:`), i.e. not `None` and not `""`. -/
def process_clipboard (remote : String → Option String) (s : PipelineState) :
    RunResult :=
  match s.clipboard with
  | none => ⟨s, 0⟩
  | some text =>
    if strip text = "" then ⟨s, 0⟩
    else if some text = s.last_processed then ⟨s, 0⟩
    else
      match remote text with
      | none => ⟨s, 1⟩
      | some model_response =>
        if model_response = "" then ⟨s, 1⟩
        else ⟨⟨some model_response, some model_response⟩, 1⟩

/-- One run of the dispatch pipeline as triggered by the hotkey:
`process_clipboard` with the remote call `send_prompt_to_gemini` at its
default options. -/
def run (net : String → String → Nat → ℚ → Except String GeminiResponse)
    (s : PipelineState) : RunResult :=
  process_clipboard (send_prompt_to_gemini_defaults net) s

/-- Observable actions of one dispatch-pipeline execution on the shared
state: taking the module lock `_lock`, the clipboard read
`pyperclip.paste()`, the clipboard write `pyperclip.copy(...)`, and the
release of the lock when the `with _lock:` block exits. -/
inductive DispatchAction : Type
  | acquire
  | readClip
  | writeClip
  | release
deriving DecidableEq, Repr

/-- Control point of one worker thread running `process_clipboard`: not yet
started, holding the lock before the read, after the read (covering the
remote call and both no-op branches), after a clipboard write, and done
(lock released). -/
inductive ThreadPhase : Type
  | idle
  | locked
  | readDone
  | wrote
  | finished
deriving DecidableEq, Repr

/-- Global configuration of two worker threads (named by `Bool`) spawned by
`hotkey_callback` for overlapping trigger events: who holds `_lock`, each
thread's control point, and the history of shared-state actions in the order
they happened. -/
structure LockConfig where
  lock : Option Bool
  phase : Bool → ThreadPhase
  trace : List (Bool × DispatchAction)

/-- Interleaving semantics of two concurrent `process_clipboard` executions
(lines 138–162).  A thread enters the `with _lock:` block only when the lock
is free; the clipboard read, the optional clipboard write, and the release
are its subsequent steps.  `releaseAfterSkip` covers the exits without a
write (empty clipboard, dedup hit, failed remote call), `releaseAfterWrite`
the success path. -/
inductive LockStep : LockConfig → LockConfig → Prop
  | acquire (c : LockConfig) (t : Bool) (hp : c.phase t = ThreadPhase.idle)
      (hl : c.lock = none) :
      LockStep c ⟨some t, Function.update c.phase t ThreadPhase.locked,
        c.trace ++ [(t, DispatchAction.acquire)]⟩
  | readClip (c : LockConfig) (t : Bool)
      (hp : c.phase t = ThreadPhase.locked) :
      LockStep c ⟨c.lock, Function.update c.phase t ThreadPhase.readDone,
        c.trace ++ [(t, DispatchAction.readClip)]⟩
  | writeClip (c : LockConfig) (t : Bool)
      (hp : c.phase t = ThreadPhase.readDone) :
      LockStep c ⟨c.lock, Function.update c.phase t ThreadPhase.wrote,
        c.trace ++ [(t, DispatchAction.writeClip)]⟩
  | releaseAfterSkip (c : LockConfig) (t : Bool)
      (hp : c.phase t = ThreadPhase.readDone) :
      LockStep c ⟨none, Function.update c.phase t ThreadPhase.finished,
        c.trace ++ [(t, DispatchAction.release)]⟩
  | releaseAfterWrite (c : LockConfig) (t : Bool)
      (hp : c.phase t = ThreadPhase.wrote) :
      LockStep c ⟨none, Function.update c.phase t ThreadPhase.finished,
        c.trace ++ [(t, DispatchAction.release)]⟩

/-- Initial configuration: lock free, both threads idle, empty history. -/
def initConfig : LockConfig := ⟨none, fun _ => ThreadPhase.idle, []⟩

/-- Configurations reachable by interleaving the two threads from the
initial configuration. -/
def LockReachable (c : LockConfig) : Prop :=
  Relation.ReflTransGen LockStep initConfig c

/-- A thread at one of these control points is inside the `with _lock:`
block. -/
abbrev inCritical (p : ThreadPhase) : Prop :=
  p = ThreadPhase.locked ∨ p = ThreadPhase.readDone ∨ p = ThreadPhase.wrote

/-- Control points a thread can only be at after performing its clipboard
read. -/
abbrev hasRead (p : ThreadPhase) : Prop :=
  p = ThreadPhase.readDone ∨ p = ThreadPhase.wrote ∨ p = ThreadPhase.finished

/-- Serialization property of a history: whenever two distinct threads both
performed their clipboard read, the earlier thread released the lock — and
hence fully completed its run, clipboard write included — strictly between
the two reads. -/
def Serialized (tr : List (Bool × DispatchAction)) : Prop :=
  ∀ a b : Bool, ∀ i j : Nat, a ≠ b → i < j →
    tr[i]? = some (a, DispatchAction.readClip) →
    tr[j]? = some (b, DispatchAction.readClip) →
    ∃ k : Nat, i < k ∧ k < j ∧ tr[k]? = some (a, DispatchAction.release)

/-- Lock-ownership invariant: any thread inside the critical section is the
lock holder. -/
abbrev MutexOk (lock : Option Bool) (phase : Bool → ThreadPhase) : Prop :=
  ∀ t, inCritical (phase t) → lock = some t

/-- History invariant: a thread's clipboard read is recorded exactly when its
control point is past the read. -/
abbrev ReadMarks (phase : Bool → ThreadPhase)
    (tr : List (Bool × DispatchAction)) : Prop :=
  ∀ t, ((t, DispatchAction.readClip) ∈ tr ↔ hasRead (phase t))

/-- History invariant: a finished thread's recorded read is followed by its
recorded release. -/
abbrev ReadsReleased (phase : Bool → ThreadPhase)
    (tr : List (Bool × DispatchAction)) : Prop :=
  ∀ t, phase t = ThreadPhase.finished →
    ∀ i : Nat, tr[i]? = some (t, DispatchAction.readClip) →
      ∃ k : Nat, i < k ∧ tr[k]? = some (t, DispatchAction.release)

/-- Inductive invariant of the two-thread system. -/
def LockInv (c : LockConfig) : Prop :=
  MutexOk c.lock c.phase ∧ ReadMarks c.phase c.trace ∧
    ReadsReleased c.phase c.trace ∧ Serialized c.trace

/-- Thread phases of the demonstration interleaving, step by step. -/
def demoPhase0 : Bool → ThreadPhase := fun _ => ThreadPhase.idle

/-- Phases after thread `true` takes the lock. -/
def demoPhase1 : Bool → ThreadPhase :=
  Function.update demoPhase0 true ThreadPhase.locked

/-- Phases after thread `true` reads the clipboard. -/
def demoPhase2 : Bool → ThreadPhase :=
  Function.update demoPhase1 true ThreadPhase.readDone

/-- Phases after thread `true` writes the clipboard. -/
def demoPhase3 : Bool → ThreadPhase :=
  Function.update demoPhase2 true ThreadPhase.wrote

/-- Phases after thread `true` releases the lock. -/
def demoPhase4 : Bool → ThreadPhase :=
  Function.update demoPhase3 true ThreadPhase.finished

/-- Phases after thread `false` takes the lock. -/
def demoPhase5 : Bool → ThreadPhase :=
  Function.update demoPhase4 false ThreadPhase.locked

/-- Phases after thread `false` reads the clipboard. -/
def demoPhase6 : Bool → ThreadPhase :=
  Function.update demoPhase5 false ThreadPhase.readDone

/-- Demonstration configuration after thread `true` takes the lock. -/
def demoCfg1 : LockConfig :=
  ⟨some true, demoPhase1, [(true, DispatchAction.acquire)]⟩

/-- Demonstration configuration after thread `true` reads the clipboard. -/
def demoCfg2 : LockConfig :=
  ⟨some true, demoPhase2,
    [(true, DispatchAction.acquire), (true, DispatchAction.readClip)]⟩

/-- Demonstration configuration after thread `true` writes the clipboard. -/
def demoCfg3 : LockConfig :=
  ⟨some true, demoPhase3,
    [(true, DispatchAction.acquire), (true, DispatchAction.readClip),
     (true, DispatchAction.writeClip)]⟩

/-- Demonstration configuration after thread `true` releases the lock. -/
def demoCfg4 : LockConfig :=
  ⟨none, demoPhase4,
    [(true, DispatchAction.acquire), (true, DispatchAction.readClip),
     (true, DispatchAction.writeClip), (true, DispatchAction.release)]⟩

/-- Demonstration configuration after thread `false` takes the lock. -/
def demoCfg5 : LockConfig :=
  ⟨some false, demoPhase5,
    [(true, DispatchAction.acquire), (true, DispatchAction.readClip),
     (true, DispatchAction.writeClip), (true, DispatchAction.release),
     (false, DispatchAction.acquire)]⟩

/-- Demonstration configuration after thread `false` reads the clipboard:
a complete first run followed by the read of an overlapping second run. -/
def demoCfg6 : LockConfig :=
  ⟨some false, demoPhase6,
    [(true, DispatchAction.acquire), (true, DispatchAction.readClip),
     (true, DispatchAction.writeClip), (true, DispatchAction.release),
     (false, DispatchAction.acquire), (false, DispatchAction.readClip)]⟩

/-- C4: `extract_text_from_response` attempts the direct `text` field first,
then the nested candidates chain, then the alternate `parts` chain, and
returns the value of the first shape that yields a non-absent text value; in
particular a direct-field value is returned even when nested shapes are
present and differ. -/
theorem claim_C4_extraction_priority (resp : GeminiResponse) (v : String) :
    (resp.text = some v → extract_text_from_response resp = some v) ∧
    (resp.text = none → candidatesText resp = some v →
      extract_text_from_response resp = some v) ∧
    (resp.text = none → candidatesText resp = none → partsText resp = some v →
      extract_text_from_response resp = some v) ∧
    (resp.text = none → candidatesText resp = none → partsText resp = none →
      extract_text_from_response resp = none) := by
  unfold extract_text_from_response
  refine ⟨fun h1 => ?_, fun h1 h2 => ?_, fun h1 h2 h3 => ?_, fun h1 h2 h3 => ?_⟩ <;>
    simp [h1, *]

/-- Witness for C4: a payload where all three shapes are present and differ;
the direct field wins. -/
theorem claim_C4_extraction_priority_witness :
    (⟨some "direct", [⟨some ⟨[⟨some "nested"⟩]⟩⟩], [⟨some "alt"⟩]⟩ :
        GeminiResponse).text = some "direct" ∧
    candidatesText ⟨some "direct", [⟨some ⟨[⟨some "nested"⟩]⟩⟩], [⟨some "alt"⟩]⟩
        = some "nested" ∧
    extract_text_from_response
        ⟨some "direct", [⟨some ⟨[⟨some "nested"⟩]⟩⟩], [⟨some "alt"⟩]⟩
        = some "direct" :=
  ⟨rfl, rfl,
    (claim_C4_extraction_priority
      ⟨some "direct", [⟨some ⟨[⟨some "nested"⟩]⟩⟩], [⟨some "alt"⟩]⟩ "direct").1 rfl⟩

/-- C7: every failure mode of the remote call — an exception raised by the
network interaction (timeout, authentication, rate limit, malformed payload,
modelled by `Except.error`) or a response from which no known shape yields a
text value — produces the single uniform outcome `none`; the function is
total, so no exception propagates to the caller. -/
theorem claim_C7_uniform_failure
    (net : String → String → Nat → ℚ → Except String GeminiResponse)
    (p m : String) (mt : Nat) (temp : ℚ) :
    send_prompt_to_gemini net p m mt temp = none ↔
      ((∃ e, net p m mt temp = Except.error e) ∨
       (∃ resp, net p m mt temp = Except.ok resp ∧
          extract_text_from_response resp = none)) := by
  unfold send_prompt_to_gemini
  cases h : net p m mt temp <;> simp [h]

/-- Witness for C7: a network timeout exception yields the uniform `none`. -/
theorem claim_C7_uniform_failure_witness :
    send_prompt_to_gemini (fun _ _ _ _ => Except.error "timeout") "p" "m" 800
      0.2 = none :=
  (claim_C7_uniform_failure (fun _ _ _ _ => Except.error "timeout") "p" "m" 800
    0.2).mpr (Or.inl ⟨"timeout", rfl⟩)

/-- C10: when the caller supplies no options, the client uses the Python
default arguments: the fast/lite model variant "gemini-2.0-flash-lite", a cap
of 800 output tokens, and sampling temperature 0.2 (the rational 1/5). -/
theorem claim_C10_default_options :
    (∀ net p, send_prompt_to_gemini_defaults net p =
        send_prompt_to_gemini net p "gemini-2.0-flash-lite" 800 0.2) ∧
    default_model = "gemini-2.0-flash-lite" ∧
    default_max_tokens = 800 ∧
    default_temperature = 0.2 ∧ default_temperature = 1 / 5 := by
  refine ⟨fun net p => rfl, rfl, rfl, rfl, ?_⟩
  norm_num [default_temperature]

/-- C5: when the clipboard text equals the current last-processed text, the
run is a no-op with zero remote calls. -/
theorem claim_C5_dedup_skip (remote : String → Option String)
    (s : PipelineState) (text : String) (h1 : s.clipboard = some text)
    (h2 : s.last_processed = some text) :
    process_clipboard remote s = ⟨s, 0⟩ := by
  unfold process_clipboard
  rw [h1]
  by_cases he : strip text = ""
  · simp [he]
  · simp [he, h2]

/-- Witness for C5: clipboard "Bonjour" with last-processed "Bonjour" makes
no remote call even though the oracle would answer. -/
theorem claim_C5_dedup_skip_witness :
    (⟨some "Bonjour", some "Bonjour"⟩ : PipelineState).clipboard
        = some "Bonjour" ∧
    process_clipboard (fun _ => some "reply") ⟨some "Bonjour", some "Bonjour"⟩
        = ⟨⟨some "Bonjour", some "Bonjour"⟩, 0⟩ :=
  ⟨rfl, claim_C5_dedup_skip (fun _ => some "reply")
    ⟨some "Bonjour", some "Bonjour"⟩ "Bonjour" rfl rfl⟩

/-- C6: absent or non-textual clipboard (`none`), or text that is empty after
stripping whitespace, makes the run a no-op: the state is unchanged and the
remote client is not called. -/
theorem claim_C6_empty_noop (remote : String → Option String)
    (s : PipelineState)
    (h : s.clipboard = none ∨ ∃ text, s.clipboard = some text ∧
      strip text = "") :
    process_clipboard remote s = ⟨s, 0⟩ := by
  unfold process_clipboard
  rcases h with h | ⟨text, h1, h2⟩
  · rw [h]
  · rw [h1]; simp [h2]

/-- Witness for C6: a whitespace-only clipboard is a no-op. -/
theorem claim_C6_empty_noop_witness :
    strip " \t " = "" ∧
    process_clipboard (fun _ => some "reply") ⟨some " \t ", none⟩
        = ⟨⟨some " \t ", none⟩, 0⟩ :=
  ⟨by decide, claim_C6_empty_noop (fun _ => some "reply") ⟨some " \t ", none⟩
    (Or.inr ⟨" \t ", rfl, by decide⟩)⟩

/-- C3: when the remote call fails (returns no usable reply, `none`), the run
leaves the whole state — clipboard and last-processed text — at its pre-call
value. -/
theorem claim_C3_failure_unchanged (remote : String → Option String)
    (s : PipelineState) (text : String) (h1 : s.clipboard = some text)
    (h2 : remote text = none) :
    (process_clipboard remote s).state = s := by
  unfold process_clipboard
  rw [h1]
  by_cases he : strip text = ""
  · simp [he]
  · by_cases hd : some text = s.last_processed
    · simp [he, hd]
    · simp [he, hd, h2]

/-- Witness for C3: a failing remote call leaves the state untouched. -/
theorem claim_C3_failure_unchanged_witness :
    ((fun _ => none) : String → Option String) "hello" = none ∧
    (process_clipboard (fun _ => none) ⟨some "hello", some "old"⟩).state
        = ⟨some "hello", some "old"⟩ :=
  ⟨rfl, claim_C3_failure_unchanged (fun _ => none)
    ⟨some "hello", some "old"⟩ "hello" rfl rfl⟩

/-- Counterexample to C1 as stated: the remote call succeeds returning the
string `""`, yet after the run the clipboard still holds the original "hi"
and the last-processed text is still `none` — neither equals the returned
string, because `if model_response:` treats `""` as falsy. -/
theorem claim_C1_counterexample :
    ((fun _ => some "") : String → Option String) "hi" = some "" ∧
    process_clipboard (fun _ => some "") ⟨some "hi", none⟩
        = ⟨⟨some "hi", none⟩, 1⟩ ∧
    (⟨some "hi", none⟩ : PipelineState) ≠ ⟨some "", some ""⟩ :=
  ⟨rfl, by decide, by decide⟩

/-- C1 (amended): for every non-empty string R returned by a successful remote
call, after the run the clipboard content and the last-processed text both
equal R. -/
theorem claim_C1_success_updates (remote : String → Option String)
    (s : PipelineState) (text R : String) (h1 : s.clipboard = some text)
    (h2 : strip text ≠ "") (h3 : s.last_processed ≠ some text)
    (h4 : remote text = some R) (h5 : R ≠ "") :
    (process_clipboard remote s).state = ⟨some R, some R⟩ := by
  unfold process_clipboard
  rw [h1]
  simp [h2, Ne.symm h3, h4, h5]

/-- Witness for C1 (amended): the end-to-end scenario — clipboard holds a
prompt, the remote replies "Bonjour", both fields become "Bonjour". -/
theorem claim_C1_success_updates_witness :
    strip "Translate to French: hello" ≠ "" ∧
    (process_clipboard (fun _ => some "Bonjour")
        ⟨some "Translate to French: hello", none⟩).state
      = ⟨some "Bonjour", some "Bonjour"⟩ :=
  ⟨by decide, claim_C1_success_updates (fun _ => some "Bonjour")
    ⟨some "Translate to French: hello", none⟩ "Translate to French: hello"
    "Bonjour" rfl (by decide) (by decide) rfl (by decide)⟩

/-- C8: the last-processed text starts as `none` ("no value"), and a run
mutates it only on a successful remote call, setting it to the very text
written back to the clipboard; on every other path it is unchanged. -/
theorem claim_C8_last_processed_invariant :
    initial_last_processed = none ∧
    ∀ (remote : String → Option String) (s : PipelineState),
      (process_clipboard remote s).state.last_processed = s.last_processed ∨
      ∃ text r, s.clipboard = some text ∧ remote text = some r ∧ r ≠ "" ∧
        (process_clipboard remote s).state.last_processed = some r ∧
        (process_clipboard remote s).state.clipboard = some r := by
  refine ⟨rfl, fun remote s => ?_⟩
  unfold process_clipboard
  cases hc : s.clipboard with
  | none => exact Or.inl rfl
  | some text =>
    by_cases he : strip text = ""
    · left; simp [he]
    · by_cases hd : some text = s.last_processed
      · left; simp [he, hd]
      · cases hr : remote text with
        | none => left; simp [he, hd, hr]
        | some r =>
          by_cases hrr : r = ""
          · left; simp [he, hd, hr, hrr]
          · exact Or.inr ⟨text, r, rfl, hr, hrr, by simp [he, hd, hr, hrr],
              by simp [he, hd, hr, hrr]⟩

/-- C9: a remote call that succeeds with the empty string takes the failure
branch: the clipboard is not written and the last-processed text is
unchanged, although one remote call was made — the run result is identical
to that of a failed call, so an empty reply is indistinguishable from a
failure at the pipeline boundary. -/
theorem claim_C9_empty_reply_is_failure (remote : String → Option String)
    (s : PipelineState) (text : String) (h1 : s.clipboard = some text)
    (h2 : strip text ≠ "") (h3 : s.last_processed ≠ some text)
    (h4 : remote text = some "") :
    process_clipboard remote s = ⟨s, 1⟩ ∧
    process_clipboard remote s = process_clipboard (fun _ => none) s := by
  unfold process_clipboard
  rw [h1]
  simp [h2, Ne.symm h3, h4]

/-- Witness for C9: an empty reply to clipboard "hi" leaves the state as it
was, with one remote call made. -/
theorem claim_C9_empty_reply_is_failure_witness :
    strip "hi" ≠ "" ∧
    process_clipboard (fun _ => some "") ⟨some "hi", none⟩
        = ⟨⟨some "hi", none⟩, 1⟩ :=
  ⟨by decide, (claim_C9_empty_reply_is_failure (fun _ => some "")
    ⟨some "hi", none⟩ "hi" rfl (by decide) (by decide) rfl).1⟩

/-- Appending events to a history keeps existing positions intact. -/
theorem getElem?_append_of_some {α : Type} {l l2 : List α} {i : Nat} {x : α}
    (h : l[i]? = some x) : (l ++ l2)[i]? = some x := by
  have hi : i < l.length := (List.getElem?_eq_some.mp h).1
  rw [List.getElem?_append_left hi]
  exact h

/-- A position in a history extended by one event is either an old position
or the new final one. -/
theorem getElem?_append_cases {α : Type} (l : List α) (e : α) (i : Nat) (x : α)
    (h : (l ++ [e])[i]? = some x) :
    (i < l.length ∧ l[i]? = some x) ∨ (i = l.length ∧ x = e) := by
  rcases lt_trichotomy i l.length with hi | hi | hi
  · exact Or.inl ⟨hi, by rw [List.getElem?_append_left hi] at h; exact h⟩
  · subst hi
    right
    refine ⟨rfl, ?_⟩
    have he : (l ++ [e])[l.length]? = some e := by simp
    rw [he] at h
    exact (Option.some_inj.mp h).symm
  · exfalso
    have hb := (List.getElem?_eq_some.mp h).1
    simp [List.length_append] at hb
    omega

/-- Appending a non-read event preserves the serialization property. -/
theorem serialized_append_non_read (tr : List (Bool × DispatchAction))
    (e : Bool × DispatchAction) (he : e.2 ≠ DispatchAction.readClip)
    (h : Serialized tr) : Serialized (tr ++ [e]) := by
  intro a b i j hab hij hi hj
  rcases getElem?_append_cases tr e j _ hj with ⟨hjlt, hjold⟩ | ⟨_, hx⟩
  · have hilt : i < tr.length := lt_trans hij hjlt
    rw [List.getElem?_append_left hilt] at hi
    obtain ⟨k, h1, h2, h3⟩ := h a b i j hab hij hi hjold
    exact ⟨k, h1, h2, getElem?_append_of_some h3⟩
  · exact absurd (congrArg Prod.snd hx.symm) he

/-- Appending an event that is not thread u's read preserves the
read-then-release property for u. -/
theorem readRelease_append {tr : List (Bool × DispatchAction)} {u : Bool}
    (e : Bool × DispatchAction) (hne : e ≠ (u, DispatchAction.readClip))
    (h : ∀ i : Nat, tr[i]? = some (u, DispatchAction.readClip) →
      ∃ k : Nat, i < k ∧ tr[k]? = some (u, DispatchAction.release)) :
    ∀ i : Nat, (tr ++ [e])[i]? = some (u, DispatchAction.readClip) →
      ∃ k : Nat, i < k ∧ (tr ++ [e])[k]? = some (u, DispatchAction.release) := by
  intro i hi
  rcases getElem?_append_cases tr e i _ hi with ⟨_, hold⟩ | ⟨_, hx⟩
  · obtain ⟨k, hik, hk⟩ := h i hold
    exact ⟨k, hik, getElem?_append_of_some hk⟩
  · exact absurd hx.symm hne

/-- A step by thread t preserves the read-marking invariant for every other
thread. -/
theorem readMarks_other {phase : Bool → ThreadPhase}
    {tr : List (Bool × DispatchAction)} (hm : ReadMarks phase tr) (t : Bool)
    (p' : ThreadPhase) (a : DispatchAction) :
    ∀ u, u ≠ t → ((u, DispatchAction.readClip) ∈ tr ++ [(t, a)] ↔
      hasRead (Function.update phase t p' u)) := by
  intro u hut
  rw [Function.update_noteq hut, List.mem_append]
  simp only [List.mem_singleton]
  constructor
  · rintro (h | h)
    · exact (hm u).mp h
    · exact absurd (congrArg Prod.fst h) hut
  · intro h
    exact Or.inl ((hm u).mpr h)

/-- The invariant is preserved when a thread takes the lock. -/
theorem lockInv_acquire {c : LockConfig} {t : Bool}
    (hp : c.phase t = ThreadPhase.idle) (hl : c.lock = none)
    (hinv : LockInv c) :
    LockInv ⟨some t, Function.update c.phase t ThreadPhase.locked,
      c.trace ++ [(t, DispatchAction.acquire)]⟩ := by
  obtain ⟨inv1, inv2, inv3, inv4⟩ := hinv
  have m1 : MutexOk (some t) (Function.update c.phase t ThreadPhase.locked) := by
    intro u hu
    by_cases hut : u = t
    · subst hut; rfl
    · rw [Function.update_noteq hut] at hu
      have h := inv1 u hu
      rw [hl] at h
      exact absurd h (by simp)
  have m2 : ReadMarks (Function.update c.phase t ThreadPhase.locked)
      (c.trace ++ [(t, DispatchAction.acquire)]) := by
    intro u
    by_cases hut : u = t
    · subst hut
      rw [Function.update_same]
      have h2 := inv2 u
      rw [hp] at h2
      simp only [hasRead] at h2 ⊢
      simp at h2 ⊢
      exact h2
    · exact readMarks_other inv2 t ThreadPhase.locked DispatchAction.acquire u hut
  have m3 : ReadsReleased (Function.update c.phase t ThreadPhase.locked)
      (c.trace ++ [(t, DispatchAction.acquire)]) := by
    intro u hu i hi
    by_cases hut : u = t
    · subst hut
      rw [Function.update_same] at hu
      exact absurd hu (by simp)
    · rw [Function.update_noteq hut] at hu
      exact readRelease_append _ (by simp) (inv3 u hu) i hi
  have m4 : Serialized (c.trace ++ [(t, DispatchAction.acquire)]) :=
    serialized_append_non_read _ _ (by simp) inv4
  exact ⟨m1, m2, m3, m4⟩

/-- The invariant is preserved when the lock holder reads the clipboard.
The serialization clause is the heart: any other thread with a recorded read
must already be finished, because it cannot hold the lock now, so its release
lies between its read and the new read. -/
theorem lockInv_readClip {c : LockConfig} {t : Bool}
    (hp : c.phase t = ThreadPhase.locked) (hinv : LockInv c) :
    LockInv ⟨c.lock, Function.update c.phase t ThreadPhase.readDone,
      c.trace ++ [(t, DispatchAction.readClip)]⟩ := by
  obtain ⟨inv1, inv2, inv3, inv4⟩ := hinv
  have m1 : MutexOk c.lock (Function.update c.phase t ThreadPhase.readDone) := by
    intro u hu
    by_cases hut : u = t
    · subst hut; exact inv1 u (Or.inl hp)
    · rw [Function.update_noteq hut] at hu
      exact inv1 u hu
  have m2 : ReadMarks (Function.update c.phase t ThreadPhase.readDone)
      (c.trace ++ [(t, DispatchAction.readClip)]) := by
    intro u
    by_cases hut : u = t
    · subst hut
      rw [Function.update_same]
      simp [hasRead]
    · exact readMarks_other inv2 t ThreadPhase.readDone DispatchAction.readClip
        u hut
  have m3 : ReadsReleased (Function.update c.phase t ThreadPhase.readDone)
      (c.trace ++ [(t, DispatchAction.readClip)]) := by
    intro u hu i hi
    by_cases hut : u = t
    · subst hut
      rw [Function.update_same] at hu
      exact absurd hu (by simp)
    · rw [Function.update_noteq hut] at hu
      refine readRelease_append _ ?_ (inv3 u hu) i hi
      intro h
      exact hut (congrArg Prod.fst h).symm
  have m4 : Serialized (c.trace ++ [(t, DispatchAction.readClip)]) := by
    intro a b i j hab hij hi hj
    rcases getElem?_append_cases c.trace (t, DispatchAction.readClip) j _ hj with
      ⟨hjlt, hjold⟩ | ⟨hjn, hx⟩
    · have hilt : i < c.trace.length := lt_trans hij hjlt
      rw [List.getElem?_append_left hilt] at hi
      obtain ⟨k, h1, h2, h3⟩ := inv4 a b i j hab hij hi hjold
      exact ⟨k, h1, h2, getElem?_append_of_some h3⟩
    · have hbt : b = t := congrArg Prod.fst hx
      subst hbt
      have hilt : i < c.trace.length := by omega
      rw [List.getElem?_append_left hilt] at hi
      have hmem : (a, DispatchAction.readClip) ∈ c.trace := by
        have h := (List.getElem?_eq_some.mp hi)
        obtain ⟨hb, hv⟩ := h
        exact hv ▸ List.getElem_mem hb
      have hra := (inv2 a).mp hmem
      have hlb := inv1 b (Or.inl hp)
      rcases hra with h | h | h
      · have hca := inv1 a (Or.inr (Or.inl h))
        rw [hlb] at hca
        exact absurd (Option.some_inj.mp hca) (Ne.symm hab)
      · have hca := inv1 a (Or.inr (Or.inr h))
        rw [hlb] at hca
        exact absurd (Option.some_inj.mp hca) (Ne.symm hab)
      · obtain ⟨k, hik, hk⟩ := inv3 a h i hi
        have hklt : k < c.trace.length := (List.getElem?_eq_some.mp hk).1
        exact ⟨k, hik, by omega, getElem?_append_of_some hk⟩
  exact ⟨m1, m2, m3, m4⟩

/-- The invariant is preserved when the lock holder writes the clipboard. -/
theorem lockInv_writeClip {c : LockConfig} {t : Bool}
    (hp : c.phase t = ThreadPhase.readDone) (hinv : LockInv c) :
    LockInv ⟨c.lock, Function.update c.phase t ThreadPhase.wrote,
      c.trace ++ [(t, DispatchAction.writeClip)]⟩ := by
  obtain ⟨inv1, inv2, inv3, inv4⟩ := hinv
  have m1 : MutexOk c.lock (Function.update c.phase t ThreadPhase.wrote) := by
    intro u hu
    by_cases hut : u = t
    · subst hut; exact inv1 u (Or.inr (Or.inl hp))
    · rw [Function.update_noteq hut] at hu
      exact inv1 u hu
  have m2 : ReadMarks (Function.update c.phase t ThreadPhase.wrote)
      (c.trace ++ [(t, DispatchAction.writeClip)]) := by
    intro u
    by_cases hut : u = t
    · subst hut
      rw [Function.update_same]
      have hm : (u, DispatchAction.readClip) ∈ c.trace :=
        (inv2 u).mpr (Or.inl hp)
      simp [hasRead, List.mem_append, hm]
    · exact readMarks_other inv2 t ThreadPhase.wrote DispatchAction.writeClip
        u hut
  have m3 : ReadsReleased (Function.update c.phase t ThreadPhase.wrote)
      (c.trace ++ [(t, DispatchAction.writeClip)]) := by
    intro u hu i hi
    by_cases hut : u = t
    · subst hut
      rw [Function.update_same] at hu
      exact absurd hu (by simp)
    · rw [Function.update_noteq hut] at hu
      exact readRelease_append _ (by simp) (inv3 u hu) i hi
  have m4 : Serialized (c.trace ++ [(t, DispatchAction.writeClip)]) :=
    serialized_append_non_read _ _ (by simp) inv4
  exact ⟨m1, m2, m3, m4⟩

/-- The invariant is preserved when the lock holder leaves the `with _lock:`
block, whether it wrote the clipboard or exited via a no-op or failure
branch. -/
theorem lockInv_release {c : LockConfig} {t : Bool}
    (hp : c.phase t = ThreadPhase.readDone ∨ c.phase t = ThreadPhase.wrote)
    (hinv : LockInv c) :
    LockInv ⟨none, Function.update c.phase t ThreadPhase.finished,
      c.trace ++ [(t, DispatchAction.release)]⟩ := by
  obtain ⟨inv1, inv2, inv3, inv4⟩ := hinv
  have hcrit : inCritical (c.phase t) := by
    rcases hp with h | h
    · exact Or.inr (Or.inl h)
    · exact Or.inr (Or.inr h)
  have hread : (t, DispatchAction.readClip) ∈ c.trace := by
    rcases hp with h | h
    · exact (inv2 t).mpr (Or.inl h)
    · exact (inv2 t).mpr (Or.inr (Or.inl h))
  have m1 : MutexOk none (Function.update c.phase t ThreadPhase.finished) := by
    intro u hu
    by_cases hut : u = t
    · subst hut
      rw [Function.update_same] at hu
      rcases hu with h | h | h <;> exact absurd h (by simp)
    · rw [Function.update_noteq hut] at hu
      have h1 := inv1 u hu
      have h2 := inv1 t hcrit
      rw [h2] at h1
      exact absurd (Option.some_inj.mp h1) (Ne.symm hut)
  have m2 : ReadMarks (Function.update c.phase t ThreadPhase.finished)
      (c.trace ++ [(t, DispatchAction.release)]) := by
    intro u
    by_cases hut : u = t
    · subst hut
      rw [Function.update_same]
      simp [hasRead, List.mem_append, hread]
    · exact readMarks_other inv2 t ThreadPhase.finished DispatchAction.release
        u hut
  have m3 : ReadsReleased (Function.update c.phase t ThreadPhase.finished)
      (c.trace ++ [(t, DispatchAction.release)]) := by
    intro u hu i hi
    by_cases hut : u = t
    · subst hut
      rcases getElem?_append_cases c.trace (u, DispatchAction.release) i _ hi
        with ⟨hilt, _⟩ | ⟨_, hx⟩
      · exact ⟨c.trace.length, hilt, by simp⟩
      · exact absurd hx (by simp)
    · rw [Function.update_noteq hut] at hu
      exact readRelease_append _ (by simp) (inv3 u hu) i hi
  have m4 : Serialized (c.trace ++ [(t, DispatchAction.release)]) :=
    serialized_append_non_read _ _ (by simp) inv4
  exact ⟨m1, m2, m3, m4⟩

/-- The initial configuration satisfies the invariant. -/
theorem lockInv_init : LockInv initConfig := by
  refine ⟨?_, ?_, ?_, ?_⟩
  · intro t ht
    rcases ht with h | h | h <;> exact absurd h (by simp [initConfig])
  · intro t
    simp [initConfig, hasRead]
  · intro t ht
    exact absurd ht (by simp [initConfig])
  · intro a b i j _ _ hi _
    simp [initConfig] at hi

/-- Every interleaving step preserves the invariant. -/
theorem lockStep_preserves {c c' : LockConfig} (hs : LockStep c c')
    (hinv : LockInv c) : LockInv c' := by
  cases hs with
  | acquire t hp hl => exact lockInv_acquire hp hl hinv
  | readClip t hp => exact lockInv_readClip hp hinv
  | writeClip t hp => exact lockInv_writeClip hp hinv
  | releaseAfterSkip t hp => exact lockInv_release (Or.inl hp) hinv
  | releaseAfterWrite t hp => exact lockInv_release (Or.inr hp) hinv

/-- Every reachable configuration satisfies the invariant. -/
theorem lockReachable_inv {c : LockConfig} (h : LockReachable c) :
    LockInv c := by
  induction h with
  | refl => exact lockInv_init
  | tail _ hstep ih => exact lockStep_preserves hstep ih

/-- C2: at most one dispatch-pipeline run executes at a time — in every
reachable configuration the threads inside the `with _lock:` block coincide —
and the history is serialized: for any two overlapping runs, the second run's
clipboard read happens only after the first run's release, hence after its
clipboard write (or no-op) has fully completed. -/
theorem claim_C2_lock_serializes (c : LockConfig) (hc : LockReachable c) :
    (∀ a b : Bool, inCritical (c.phase a) → inCritical (c.phase b) → a = b) ∧
    Serialized c.trace := by
  obtain ⟨inv1, _, _, inv4⟩ := lockReachable_inv hc
  refine ⟨fun a b ha hb => ?_, inv4⟩
  have h1 := inv1 a ha
  have h2 := inv1 b hb
  rw [h1] at h2
  exact Option.some_inj.mp h2

/-- The demonstration interleaving is reachable: thread `true` runs to
completion, then thread `false` acquires and reads. -/
theorem demoCfg6_reachable : LockReachable demoCfg6 := by
  have s1 : LockStep initConfig demoCfg1 :=
    LockStep.acquire initConfig true rfl rfl
  have s2 : LockStep demoCfg1 demoCfg2 :=
    LockStep.readClip demoCfg1 true rfl
  have s3 : LockStep demoCfg2 demoCfg3 :=
    LockStep.writeClip demoCfg2 true rfl
  have s4 : LockStep demoCfg3 demoCfg4 :=
    LockStep.releaseAfterWrite demoCfg3 true rfl
  have s5 : LockStep demoCfg4 demoCfg5 :=
    LockStep.acquire demoCfg4 false rfl rfl
  have s6 : LockStep demoCfg5 demoCfg6 :=
    LockStep.readClip demoCfg5 false rfl
  exact ((((((Relation.ReflTransGen.refl).tail s1).tail s2).tail s3).tail
    s4).tail s5).tail s6

/-- Witness for C2: in the demonstration interleaving, thread `true` reads at
position 1, thread `false` reads at position 5, and thread `true`'s release
indeed lies strictly between them. -/
theorem claim_C2_lock_serializes_witness :
    demoCfg6.trace[1]? = some (true, DispatchAction.readClip) ∧
    demoCfg6.trace[5]? = some (false, DispatchAction.readClip) ∧
    ∃ k : Nat, 1 < k ∧ k < 5 ∧
      demoCfg6.trace[k]? = some (true, DispatchAction.release) :=
  ⟨rfl, rfl, (claim_C2_lock_serializes demoCfg6 demoCfg6_reachable).2 true
    false 1 5 (by decide) (by decide) rfl rfl⟩
